import Mathlib

/-!
Verification of the hierarchical ingestion and derived-metrics engine of the
My_AI_Pharma repository.  The Python sources are shallowly embedded: pandas
tables become lists of records, floats become rationals, NaN-able cells become
`Option` values, and each relevant function of the repository is translated
into a computable Lean definition carrying a reference to its source location.
-/

namespace PharmaSpec

/-! ### Python string primitives

Small executable models of the Python `str` operations the classifiers use:
`str.split()` (split on whitespace runs, dropping empty tokens), `str.strip()`,
`str.isupper()`, `str.startswith(...)` and `int(...)`.
-/

/-- The longest whitespace-free run at the head of a character list
(the rest of the current word during a `str.split()` scan). -/
def takeWord : List Char → List Char
  | [] => []
  | c :: rest => if c.isWhitespace then [] else c :: takeWord rest

/-- Drops the current word: returns the suffix starting at the first
whitespace character. -/
def dropWord : List Char → List Char
  | [] => []
  | c :: rest => if c.isWhitespace then c :: rest else dropWord rest

/-- Accumulator pass of Python `str.split()`: `acc` holds the reversed current
word; whitespace closes a word, everything else extends it. -/
def pyWordsAux : List Char → List Char → List (List Char)
  | acc, [] => if acc.isEmpty then [] else [acc.reverse]
  | acc, c :: rest =>
    if c.isWhitespace then
      if acc.isEmpty then pyWordsAux [] rest else acc.reverse :: pyWordsAux [] rest
    else
      pyWordsAux (c :: acc) rest

/-- Python `s.split()` with no argument: whitespace-delimited tokens, no
empty tokens. -/
def pyWords (s : String) : List String :=
  (pyWordsAux [] s.data).map fun cs => ⟨cs⟩

/-- Python `s.strip()`: removes leading and trailing whitespace. -/
def pyStrip (s : String) : String :=
  ⟨((s.data.dropWhile Char.isWhitespace).reverse.dropWhile Char.isWhitespace).reverse⟩

/-- Python `s.isupper()` restricted to the ASCII labels this data uses:
at least one alphabetic character and no lowercase alphabetic character. -/
def pyIsUpper (s : String) : Bool :=
  s.data.any (fun c => c.isAlpha) && s.data.all (fun c => !c.isAlpha || c.isUpper)

/-- Python `s.startswith(pre)`. -/
def pyStartsWith (s pre : String) : Bool :=
  pre.data.isPrefixOf s.data

/-- Digit run to a natural number. -/
def digitsToNat (cs : List Char) : Nat :=
  cs.foldl (fun n c => n * 10 + (c.toNat - '0'.toNat)) 0

/-- Python `int(s)` on a whitespace-free token: an optional sign followed by
at least one digit; `none` models the `ValueError` branch. -/
def pyInt? (s : String) : Option Int :=
  match s.data with
  | [] => none
  | '-' :: rest =>
    if !rest.isEmpty && rest.all Char.isDigit then some (-(digitsToNat rest : Int)) else none
  | '+' :: rest =>
    if !rest.isEmpty && rest.all Char.isDigit then some (digitsToNat rest : Int) else none
  | cs =>
    if cs.all Char.isDigit then some (digitsToNat cs : Int) else none

/-! ### Row classifiers

`src/process_excel_hierarchy.py`, `_identify_row_types` (lines 101–145): the
ingestion-time masks, and `src/logic.py`, `_is_atc_class` (lines 13–30): the
metrics-layer therapeutic-class test (the same function is repeated verbatim in
`src/evolution_index.py` and `src/advanced_viz.py`).
-/

/-- `is_region = col_a.str.startswith("Region ")` — ingestion Region rows. -/
def isRegionRow (s : String) : Bool :=
  pyStartsWith s "Region "

/-- `is_district = col_a.str.match(r"^\([A-Z]{2}\)\s+")` — ingestion
District/Brick rows. -/
def isDistrictRow (s : String) : Bool :=
  match s.data with
  | '(' :: a :: b :: ')' :: c :: _ => a.isUpper && b.isUpper && c.isWhitespace
  | _ => false

/-- `is_category = col_a.str.match(r"^[A-Z]\d{2}[A-Z]\d\s+")` — ingestion
Category (ATC) rows: the first five characters are letter, digit, digit,
letter, digit, followed by whitespace. -/
def isCategoryIngest (s : String) : Bool :=
  match s.data with
  | a :: b :: c :: d :: e :: f :: _ =>
    a.isUpper && b.isDigit && c.isDigit && d.isUpper && e.isDigit && f.isWhitespace
  | _ => false

/-- `is_drug = ~is_region & ~is_district & ~is_category` — everything else. -/
def isDrugIngest (s : String) : Bool :=
  !isRegionRow s && !isDistrictRow s && !isCategoryIngest s

/-- `src/logic.py` lines 13–30, `_is_atc_class(drug_name)`: first
whitespace-token of length 4–7, starting with a letter, containing a digit,
fully upper-case; at least two tokens; not a grand-total marker; not
Region-prefixed. -/
def isAtcClass (s : String) : Bool :=
  let parts := pyWords s
  match parts.head? with
  | none => false
  | some first =>
    decide (4 ≤ first.length) && decide (first.length ≤ 7)
    && (match first.data.head? with | some c => c.isAlpha | none => false)
    && first.data.any Char.isDigit
    && pyIsUpper first
    && decide (2 ≤ parts.length)
    && !(s == "GRAND TOTAL") && !(s == "Grand Total")
    && !(pyStartsWith s "Region")

/-- Modelled from the spec: the `TherapeuticClass` classification pattern as
§4.1 words it — label's first whitespace-delimited token has length 4–7,
starts with a letter, contains at least one digit, is fully upper-case, the
label has at least two tokens, is not a reserved aggregate marker
("GRAND TOTAL"/"Grand Total") and does not start with the Region prefix. -/
def specTherapeuticClassPattern (label : String) : Bool :=
  match pyWords label with
  | [] => false
  | first :: _ =>
    decide (4 ≤ first.length ∧ first.length ≤ 7)
    && (first.data.headD ' ').isAlpha
    && first.data.any Char.isDigit
    && pyIsUpper first
    && decide (2 ≤ (pyWords label).length)
    && !(label == "GRAND TOTAL" || label == "Grand Total")
    && !(pyStartsWith label "Region")

/-! ### Hierarchy forward-fill and row filtering

`src/process_excel_hierarchy.py`, `_fill_hierarchy` (lines 148–184) together
with the emission filter of `process_pharma_excel` step 8 (line 268,
`df[row_types["is_drug"] | row_types["is_category"]]`).  Cells of period
columns are modelled positionally; a cell holds `none` when it is empty or not
numeric (pandas `NaN`).
-/

/-- One raw sheet row: first-column label plus the cells of the period
columns, in column order. -/
structure RawRow where
  label : String
  cells : List (Option ℚ)
deriving Repr, DecidableEq

/-- A row retained by ingestion (a Drug or Category row), stamped with the
forward-filled Region and District context.  `region`/`district` are `none`
when no Region/District row has occurred above (pandas leaves `NaN`). -/
structure HierRow where
  region : Option String
  district : Option String
  label : String
  cells : List (Option ℚ)
deriving Repr, DecidableEq

/-- `_fill_hierarchy` plus the Drug|Category emission filter: a sequential
scan carrying the last-seen Region and District labels.  `col_a` is stripped
(`astype(str).str.strip()`) before classification; `Region`/`District` are
`where`-masked then `ffill()`-ed, and only `is_drug | is_category` rows are
kept, labelled by their own stripped label. -/
def fillHier (r d : Option String) : List RawRow → List HierRow
  | [] => []
  | row :: rest =>
    let lab := pyStrip row.label
    let r2 := if isRegionRow lab then some lab else r
    let d2 := if isDistrictRow lab then some lab else d
    if isDrugIngest lab || isCategoryIngest lab then
      ⟨r2, d2, lab, row.cells⟩ :: fillHier r2 d2 rest
    else
      fillHier r2 d2 rest

/-! ### Melt and display preparation

`process_pharma_excel` steps 10–11 (lines 284–306): wide-to-long melt over the
period columns with the `" Units"` suffix stripped from the period name, and
`src/data_processing.py`, `prepare_data_for_display` (lines 215–264): Region
normalisation and the Units-coercion row drop.
-/

/-- A long-format row as produced by the melt (Quarter still carries its
possibly-missing cell value). -/
structure MeltedRow where
  region : Option String
  district : Option String
  drugName : String
  quarter : String
  units : Option ℚ
deriving Repr, DecidableEq

/-- `re.sub(r"\s+Units$", "", s)`: drops one trailing whitespace-run plus
`"Units"` when present. -/
def stripUnitsSuffix (s : String) : String :=
  match s.data.reverse with
  | 's' :: 't' :: 'i' :: 'n' :: 'U' :: rest =>
    if (rest.headD 'x').isWhitespace then ⟨(rest.dropWhile Char.isWhitespace).reverse⟩ else s
  | _ => s

/-- Step 11 cleaning of the melted `Period` column:
`.str.replace(r"\s+Units$", "", regex=True).str.strip()`. -/
def cleanPeriodName (s : String) : String :=
  pyStrip (stripUnitsSuffix s)

/-- `pd.melt` over the period columns (step 10) followed by the period-name
cleaning (step 11): variable-major expansion, one output row per period column
per retained sheet row. -/
def meltRows (periodCols : List String) (rows : List HierRow) : List MeltedRow :=
  ((List.range periodCols.length).map fun i =>
    rows.map fun row =>
      ⟨row.region, row.district, row.label,
        cleanPeriodName (periodCols.getD i ""), row.cells.getD i none⟩).flatten

/-- A display-ready fact row: Region is a plain string (normalised), Units a
number. -/
structure DisplayRow where
  region : String
  district : Option String
  drugName : String
  quarter : String
  units : ℚ
deriving Repr, DecidableEq

/-- Python `str(x)` on a possibly-missing cell: pandas `astype(str)` renders a
missing value as the literal string `"nan"`. -/
def pyStrOfOpt : Option String → String
  | none => "nan"
  | some s => s

/-- `re.sub(r"^Region\s+", "", s)`: drops a leading `"Region"` plus one
whitespace run when present. -/
def stripRegionWord (s : String) : String :=
  if pyStartsWith s "Region" && ((s.data.drop 6).headD 'x').isWhitespace then
    ⟨(s.data.drop 6).dropWhile Char.isWhitespace⟩
  else s

/-- `prepare_data_for_display` line 238 Region normalisation:
`astype(str).str.replace(r"^Region\s+", "", regex=True).str.strip()`. -/
def normalizeRegion (r : Option String) : String :=
  pyStrip (stripRegionWord (pyStrOfOpt r))

/-- `src/data_processing.py` lines 215–264, `prepare_data_for_display`:
normalises Region (absent Region becomes the string `"nan"`), coerces Units
and drops only the rows whose Units cell is not numeric.  (The Molecule
column and the dtype optimisations do not affect any modelled field.) -/
def prepareForDisplay (rows : List MeltedRow) : List DisplayRow :=
  rows.filterMap fun m =>
    m.units.map fun u => ⟨normalizeRegion m.region, m.district, m.drugName, m.quarter, u⟩

/-- End-to-end single-sheet assembly used by `load_data`:
`process_pharma_excel` (fill + melt) followed by `prepare_data_for_display`. -/
def displayPipeline (periodCols : List String) (sheet : List RawRow) : List DisplayRow :=
  prepareForDisplay (meltRows periodCols (fillHier none none sheet))

/-! ### Robust per-file cleaning, deduplication, master assembly

`src/create_master_data.py`, `robust_clean_excel` (lines 95–180) and
`create_master_data` (lines 183–273).
-/

/-- A row of the master fact table. -/
structure FactRow where
  region : String
  district : Option String
  drugName : String
  source : String
  quarter : String
  units : ℚ
deriving Repr, DecidableEq

/-- The composite key of the `drop_duplicates` call (lines 163–170): Region,
Drug_Name, Source, the period column, and District when that column exists
(modelled as `none` on every row of a district-less file).  Team is never part
of the key. -/
def factKey (r : FactRow) : String × String × String × String × Option String :=
  (r.region, r.drugName, r.source, r.quarter, r.district)

/-- `drop_duplicates(subset=..., keep="first")`: scan keeping the first row of
each key. -/
def dedupAux (seen : List (String × String × String × String × Option String)) :
    List FactRow → List FactRow
  | [] => []
  | r :: rest =>
    if factKey r ∈ seen then dedupAux seen rest
    else r :: dedupAux (factKey r :: seen) rest

/-- Deduplication on the composite key, first occurrence kept
(`keep="first"`). -/
def dedupKeepFirst (rows : List FactRow) : List FactRow :=
  dedupAux [] rows

/-- `robust_clean_excel` (lines 121–176) applied to an already-melted file:
stamp Source; drop rows with missing Units; keep only `Units > 0`; drop rows
with missing Region or Drug_Name; strip the key strings (`astype(str)` turns a
missing District into `"nan"` when the District column exists); then
deduplicate keeping the first-seen row of each key.  `hasDistrict` records
whether the melted file kept its District column. -/
def robustClean (hasDistrict : Bool) (sourceName : String)
    (melted : List MeltedRow) : List FactRow :=
  let withUnits := melted.filterMap fun m => m.units.map fun u => (m, u)
  let positive := withUnits.filter fun p => decide (0 < p.2)
  let keyed := positive.filter fun p => p.1.region.isSome
  let rows : List FactRow := keyed.map fun p =>
    { region := pyStrip (pyStrOfOpt p.1.region)
      district := if hasDistrict then some (pyStrip (pyStrOfOpt p.1.district)) else none
      drugName := pyStrip p.1.drugName
      source := sourceName
      quarter := p.1.quarter
      units := p.2 }
  dedupKeepFirst rows

/-- `create_master_data` lines 224–253: the master table is the plain
concatenation (`pd.concat`) of the per-file cleaned batches — no further
deduplication is applied across files. -/
def masterOf (batches : List (List FactRow)) : List FactRow :=
  batches.flatten

/-! ### Period sort keys

`src/data_processing.py`, `get_period_sort_key` (lines 267–312) and
`get_sorted_periods` (lines 315–335), with the `QUARTERS`/`MONTHS` maps of
`src/config.py` (lines 39–45).
-/

/-- `config.QUARTERS.get(token)`. -/
def quartersMap (t : String) : Option Nat :=
  match t with
  | "Q1" => some 1 | "Q2" => some 2 | "Q3" => some 3 | "Q4" => some 4
  | _ => none

/-- `config.MONTHS.get(token)`. -/
def monthsMap (t : String) : Option Nat :=
  match t with
  | "Jan" => some 1 | "Feb" => some 2 | "Mar" => some 3 | "Apr" => some 4
  | "May" => some 5 | "Jun" => some 6 | "Jul" => some 7 | "Aug" => some 8
  | "Sep" => some 9 | "Oct" => some 10 | "Nov" => some 11 | "Dec" => some 12
  | _ => none

/-- `get_period_sort_key(period)`: year from `int(parts[-1])` (0 on parse
failure or no parts), sub-period number from the quarter map, else the month
map, else 0.  The `if quarter_num:`/`if month_num:` truthiness tests are
modelled by comparison with 0, which no stored map value equals. -/
def getPeriodSortKey (p : String) : Int × Nat :=
  let parts := pyWords p
  let year : Int := match parts.getLast? with
    | some t => (pyInt? t).getD 0
    | none => 0
  let token := parts.headD ""
  let q := (quartersMap token).getD 0
  if q ≠ 0 then (year, q)
  else
    let m := (monthsMap token).getD 0
    if m ≠ 0 then (year, m) else (year, 0)

/-- Python tuple `<` on sort keys: lexicographic. -/
def keyLt (a b : Int × Nat) : Prop :=
  a.1 < b.1 ∨ (a.1 = b.1 ∧ a.2 < b.2)

instance (a b : Int × Nat) : Decidable (keyLt a b) := by
  unfold keyLt; infer_instance

/-- Python tuple `<=` on sort keys, as the comparator of a stable sort. -/
def keyLe (a b : Int × Nat) : Bool :=
  decide (a.1 < b.1) || (a.1 == b.1 && decide (a.2 ≤ b.2))

/-- `get_sorted_periods`: `sorted(periods, key=get_period_sort_key)`
(chronological order used by the UI; `unique()` is applied by the caller). -/
def getSortedPeriods (ps : List String) : List String :=
  ps.mergeSort fun a b => keyLe (getPeriodSortKey a) (getPeriodSortKey b)

/-! ### Metrics engine

`src/logic.py`: `compute_ei_rows_and_overall` (lines 102–152) and
`compute_last_vs_previous_rankings` (lines 33–76); `src/advanced_viz.py`:
the market-share computation of `render_growth_share_bubble` (lines 65–82);
`src/ui_components.py`: the `calc_share` closure (lines 404–417).
-/

/-- One row of the Evolution-Index table built by
`compute_ei_rows_and_overall`. -/
structure EiRow where
  drug : String
  salesRef : ℚ
  salesBase : ℚ
  growthPct : ℚ
  classGrowthPct : Option ℚ
  ei : Option ℚ
deriving Repr, DecidableEq

/-- Lines 127–138 of `src/logic.py`: the matched-class growth and the EI.
Returns `(class_growth_pct, ei)`; both stay `None` when the product has no
rows, its Source is falsy, or no ATC-class row shares its Source.  `matching`
keeps the first matching class (`unique()[0]` = first occurrence). -/
def eiClassPart (df : List FactRow) (refP baseP : String)
    (productDf : List FactRow) (gp : ℚ) : Option ℚ × Option ℚ :=
  match productDf.head?.map (·.source) with
  | none => (none, none)
  | some src =>
    if src = "" then (none, none)
    else
      match ((df.filter fun r => isAtcClass r.drugName).filter
              fun r => r.source == src).head? with
      | none => (none, none)
      | some classRow =>
        let classRef := ((df.filter fun r =>
          r.drugName == classRow.drugName && r.quarter == refP).map (·.units)).sum
        let classBase := ((df.filter fun r =>
          r.drugName == classRow.drugName && r.quarter == baseP).map (·.units)).sum
        let cgp := if classBase ≠ 0 then ((classRef - classBase) / classBase) * 100
          else if classRef ≠ 0 then 100 else 0
        (some cgp, some (((100 + gp) / (100 + cgp)) * 100))

/-- Lines 122–146 of `src/logic.py`: the per-drug EI row.  Sales are the
summed Units of the drug at each period; growth follows the
`if sales_base ... else (100 if sales_ref else 0)` convention. -/
def eiRowFor (df : List FactRow) (refP baseP drug : String) : EiRow :=
  let productDf := df.filter fun r => r.drugName == drug
  let salesRef := ((productDf.filter fun r => r.quarter == refP).map (·.units)).sum
  let salesBase := ((productDf.filter fun r => r.quarter == baseP).map (·.units)).sum
  let gp := if salesBase ≠ 0 then ((salesRef - salesBase) / salesBase) * 100
    else if salesRef ≠ 0 then 100 else 0
  let cp := eiClassPart df refP baseP productDf gp
  ⟨drug, salesRef, salesBase, gp, cp.1, cp.2⟩

/-- `compute_ei_rows_and_overall` (lines 102–152): the loop accumulating the
row list together with `total_sales_ref` and `weighted_ei_sum` over the drugs
whose EI is defined; the overall EI is their quotient when the total is
positive, otherwise `None`. -/
def computeEiRowsAndOverall (df : List FactRow) (drugs : List String)
    (refP baseP : String) : List EiRow × Option ℚ :=
  let acc := drugs.foldl
    (fun (acc : List EiRow × ℚ × ℚ) drug =>
      let row := eiRowFor df refP baseP drug
      match row.ei with
      | some e => (acc.1 ++ [row], acc.2.1 + row.salesRef, acc.2.2 + e * row.salesRef)
      | none => (acc.1 ++ [row], acc.2.1, acc.2.2))
    ([], 0, 0)
  (acc.1, if acc.2.1 > 0 then some (acc.2.2 / acc.2.1) else none)

/-- `src/advanced_viz.py` lines 65–82: the Market Share of one product in the
bubble matrix — product Units at the period over the Units of the first
ATC-class row sharing the product's Source, scaled to 100, and `0.0` whenever
the product has no rows, no class matches, or the class total is not
positive. -/
def bubbleMarketShare (df : List FactRow) (drug lastPeriod : String) : ℚ :=
  let productUnits := ((df.filter fun r =>
    r.drugName == drug && r.quarter == lastPeriod).map (·.units)).sum
  match (df.filter fun r => r.drugName == drug).head? with
  | none => 0
  | some firstRow =>
    let src := firstRow.source
    match ((df.filter fun r => isAtcClass r.drugName).filter
            fun r => r.source == src).head? with
    | none => 0
    | some classRow =>
      let classUnits := ((df.filter fun r =>
        r.drugName == classRow.drugName && r.quarter == lastPeriod).map (·.units)).sum
      if classUnits > 0 then 100 * productUnits / classUnits else 0

/-- `src/ui_components.py` lines 404–417, the `calc_share(row)` closure.  The
class totals per period and the national per-drug Units are the dictionaries
captured by the closure, abstracted as total functions defaulting to 0
(`dict.get(key, 0)`).  An ATC-class row is the market itself: share 100. -/
def calcShare (classUnitsByPeriod : String → ℚ)
    (nationalUnits : String → String → ℚ) (drugName period : String) : ℚ :=
  if isAtcClass drugName then 100
  else
    let total := classUnitsByPeriod period
    if total > 0 then 100 * nationalUnits drugName period / total else 0

/-- One row of the per-region growth leaderboard. -/
structure RankRow where
  region : String
  lastUnits : ℚ
  prevUnits : ℚ
  growth : ℚ
deriving Repr, DecidableEq

/-- Lines 56–64 of `src/logic.py`: group the last and previous period by
Region, outer-merge with `fillna(0)` (a region missing from one period
contributes 0 there, which equals its empty-group sum), and compute the
guarded growth of line 64.  One merged row per region occurring in either
period (first-occurrence order; the caller sorts by growth anyway). -/
def rankingRows (df : List FactRow) (product lastP prevP : String) : List RankRow :=
  let sub := df.filter fun r => r.drugName == product
  let lastRows := sub.filter fun r => r.quarter == lastP
  let prevRows := sub.filter fun r => r.quarter == prevP
  let allRegions := ((lastRows ++ prevRows).map (·.region)).dedup
  allRegions.map fun g =>
    let lu := ((lastRows.filter fun r => r.region == g).map (·.units)).sum
    let pu := ((prevRows.filter fun r => r.region == g).map (·.units)).sum
    let growth : ℚ :=
      if pu = 0 then (if lu > 0 then 100 else 0) else ((lu - pu) / pu) * 100
    (⟨g, lu, pu, growth⟩ : RankRow)

/-- `src/logic.py` lines 33–76, `compute_last_vs_previous_rankings`: the
guard clauses returning `None` (the column-existence checks always hold in
this model), the merged per-region growth rows, and the growth-descending
sort. -/
def computeLastVsPreviousRankings (df : List FactRow) (product : String)
    (periods : List String) : Option (List RankRow × String × String) :=
  if df.isEmpty || product == "" || periods.length < 2 then none
  else
    let sub := df.filter fun r => r.drugName == product
    if sub.isEmpty then none
    else
      let lastP := periods.getD (periods.length - 1) ""
      let prevP := periods.getD (periods.length - 2) ""
      let merged := rankingRows df product lastP prevP
      let ranked := merged.mergeSort fun a b => decide (b.growth ≤ a.growth)
      some (ranked, lastP, prevP)

/-! ### Spec-side metric formulas

Written from the spec's words (§4.5), to be compared with the embedded code.
-/

/-- Modelled from the spec: the summed units of an entity at a period
(`entityUnits(period)`). -/
def unitsOf (df : List FactRow) (drug period : String) : ℚ :=
  ((df.filter fun r => r.drugName == drug && r.quarter == period).map (·.units)).sum

/-- Modelled from the spec: `GrowthPct` — `((curr - prev) / prev) * 100`,
with the edge-case policy `prev == 0 ⇒ (0 if curr == 0 else 100)`. -/
def specGrowthPct (prev curr : ℚ) : ℚ :=
  if prev = 0 then (if curr = 0 then 0 else 100) else ((curr - prev) / prev) * 100

/-- Modelled from the spec: `EvolutionIndex` —
`((100 + productGrowth) / (100 + classGrowth)) * 100`. -/
def specEvolutionIndex (productGrowth classGrowth : ℚ) : ℚ :=
  ((100 + productGrowth) / (100 + classGrowth)) * 100

/-! ### Concrete example data used by counterexamples and witnesses -/

/-- A sheet whose district row belongs to region A; region B has no district
row of its own before the drug row `DRUGY`. -/
def c2Sheet : List RawRow :=
  [⟨"Region A", [some 1]⟩, ⟨"(AB) D1", [some 1]⟩, ⟨"DRUGX", [some 1]⟩,
   ⟨"Region B", [some 1]⟩, ⟨"DRUGY", [some 1]⟩]

/-- A sheet whose first data row `ORPHAN` precedes any Region row. -/
def c6Sheet : List RawRow :=
  [⟨"ORPHAN", [some 5]⟩, ⟨"Region SOFIA", [none]⟩, ⟨"AERIUS", [some 7]⟩]

/-- Two melted rows sharing the full composite key with different Units. -/
def c1MeltedA : MeltedRow := ⟨some "Region SOFIA", some "(PH) X", "AERIUS", "Q1 2024", some 10⟩

/-- The later-ingested duplicate of `c1MeltedA`. -/
def c1MeltedB : MeltedRow := ⟨some "Region SOFIA", some "(PH) X", "AERIUS", "Q1 2024", some 20⟩

/-- The cleaned fact row of `c1MeltedA`. -/
def c1FactA : FactRow := ⟨"Region SOFIA", some "(PH) X", "AERIUS", "Allergy", "Q1 2024", 10⟩

/-- The cleaned fact row of `c1MeltedB`. -/
def c1FactB : FactRow := ⟨"Region SOFIA", some "(PH) X", "AERIUS", "Allergy", "Q1 2024", 20⟩

/-- A fact table with one product (base 100, reference 120 units: growth 20)
and its matched therapeutic class (50 and 50 units: growth 0). -/
def eiExampleDf : List FactRow :=
  [⟨"SOFIA", none, "PRODX", "Lipo", "Q1", 100⟩,
   ⟨"SOFIA", none, "PRODX", "Lipo", "Q2", 120⟩,
   ⟨"SOFIA", none, "C10A1 STATINS", "Lipo", "Q1", 50⟩,
   ⟨"SOFIA", none, "C10A1 STATINS", "Lipo", "Q2", 50⟩]

/-- A fact table where region North has rows only in the last period and
region South only in the previous period. -/
def rankExampleDf : List FactRow :=
  [⟨"North", none, "P", "S", "Q2", 5⟩, ⟨"South", none, "P", "S", "Q1", 7⟩]

/-- The year component a period token receives:
`int(last whitespace-separated part)`, or 0 when that fails. -/
def periodYear (p : String) : Int :=
  (((pyWords p).getLast?).bind pyInt?).getD 0

/-- Modelled from the spec: the summed reference-period units of the entities
whose EI is defined (the PortfolioEvolutionIndex denominator; entities with
undefined EI contribute nothing). -/
def eiDefinedWeight (rows : List EiRow) : ℚ :=
  (rows.filterMap fun r => r.ei.map fun _ => r.salesRef).sum

/-- Modelled from the spec: the EI-times-weight sum over the entities whose
EI is defined (the PortfolioEvolutionIndex numerator). -/
def eiWeightedSum (rows : List EiRow) : ℚ :=
  (rows.filterMap fun r => r.ei.map fun e => e * r.salesRef).sum

/-- Modelled from the spec: the summed units of one product in one region at
one period. -/
def productRegionUnits (df : List FactRow) (product period g : String) : ℚ :=
  ((df.filter fun r =>
    r.drugName == product && r.quarter == period && r.region == g).map (·.units)).sum

/-! ### Helper lemmas -/

theorem isRegionRow_data (s : String) (h : isRegionRow s = true) :
    ∃ t, s.data = 'R' :: 'e' :: 'g' :: 'i' :: 'o' :: 'n' :: ' ' :: t := by
  unfold isRegionRow pyStartsWith at h
  rcases List.isPrefixOf_iff_prefix.mp h with ⟨t, ht⟩
  exact ⟨t, by rw [← ht]; rfl⟩

theorem isCategoryIngest_false_of_region (s : String) (h : isRegionRow s = true) :
    isCategoryIngest s = false := by
  obtain ⟨t, ht⟩ := isRegionRow_data s h
  unfold isCategoryIngest
  rw [ht]
  rfl

theorem isDistrictRow_false_of_region (s : String) (h : isRegionRow s = true) :
    isDistrictRow s = false := by
  obtain ⟨t, ht⟩ := isRegionRow_data s h
  unfold isDistrictRow
  rw [ht]
  rfl

theorem region_row_not_emitted (s : String) (h : isRegionRow s = true) :
    (isDrugIngest s || isCategoryIngest s) = false := by
  simp [isDrugIngest, h, isCategoryIngest_false_of_region s h]

theorem fillHier_region_inv (rows : List RawRow) :
    ∀ (r d : Option String),
      (∀ q ∈ rows, isRegionRow (pyStrip q.label) = false) →
      ∀ e ∈ fillHier r d rows, e.region = r := by
  induction rows with
  | nil => intro r d _ e he; simp [fillHier] at he
  | cons row rest ih =>
    intro r d h e he
    have hrow := h row (by simp)
    rw [fillHier] at he
    simp only [hrow, if_false, Bool.false_eq_true] at he
    by_cases hemit : (isDrugIngest (pyStrip row.label) || isCategoryIngest (pyStrip row.label)) = true
    · rw [if_pos hemit] at he
      rcases List.mem_cons.mp he with rfl | he2
      · rfl
      · exact ih r _ (fun q hq => h q (List.mem_cons_of_mem _ hq)) e he2
    · rw [if_neg hemit] at he
      exact ih r _ (fun q hq => h q (List.mem_cons_of_mem _ hq)) e he

theorem fillHier_district_inv (rows : List RawRow) :
    ∀ (r d : Option String),
      (∀ q ∈ rows, isDistrictRow (pyStrip q.label) = false) →
      ∀ e ∈ fillHier r d rows, e.district = d := by
  induction rows with
  | nil => intro r d _ e he; simp [fillHier] at he
  | cons row rest ih =>
    intro r d h e he
    have hrow := h row (by simp)
    rw [fillHier] at he
    simp only [hrow, if_false, Bool.false_eq_true] at he
    by_cases hemit : (isDrugIngest (pyStrip row.label) || isCategoryIngest (pyStrip row.label)) = true
    · rw [if_pos hemit] at he
      rcases List.mem_cons.mp he with rfl | he2
      · rfl
      · exact ih _ d (fun q hq => h q (List.mem_cons_of_mem _ hq)) e he2
    · rw [if_neg hemit] at he
      exact ih _ d (fun q hq => h q (List.mem_cons_of_mem _ hq)) e he

theorem fillHier_emitted (rows : List RawRow) :
    ∀ (r d : Option String) (e : HierRow), e ∈ fillHier r d rows →
      (isDrugIngest e.label || isCategoryIngest e.label) = true := by
  induction rows with
  | nil => intro r d e he; simp [fillHier] at he
  | cons row rest ih =>
    intro r d e he
    rw [fillHier] at he
    by_cases hemit : (isDrugIngest (pyStrip row.label) || isCategoryIngest (pyStrip row.label)) = true
    · rw [if_pos hemit] at he
      rcases List.mem_cons.mp he with rfl | he2
      · exact hemit
      · exact ih _ _ e he2
    · rw [if_neg hemit] at he
      exact ih _ _ e he

theorem mem_dedupAux (rows : List FactRow) :
    ∀ (seen : List (String × String × String × String × Option String)) (x : FactRow),
      x ∈ dedupAux seen rows ↔
        factKey x ∉ seen ∧ rows.find? (fun y => decide (factKey y = factKey x)) = some x := by
  induction rows with
  | nil => intro seen x; simp [dedupAux]
  | cons r rest ih =>
    intro seen x
    by_cases hk : factKey r = factKey x
    · rw [List.find?_cons_of_pos _ (by simp [hk])]
      by_cases hr : factKey r ∈ seen
      · rw [dedupAux, if_pos hr, ih]
        constructor
        · rintro ⟨hnot, -⟩; exact absurd (hk ▸ hr) hnot
        · rintro ⟨hnot, -⟩; exact absurd (hk ▸ hr) hnot
      · rw [dedupAux, if_neg hr]
        simp only [List.mem_cons, ih]
        constructor
        · rintro (rfl | ⟨hnot, -⟩)
          · exact ⟨hr, rfl⟩
          · exact absurd (Or.inl hk.symm) hnot
        · rintro ⟨-, hx⟩
          exact Or.inl (Option.some.inj hx).symm
    · rw [List.find?_cons_of_neg _ (by simp [hk])]
      by_cases hr : factKey r ∈ seen
      · rw [dedupAux, if_pos hr, ih]
      · rw [dedupAux, if_neg hr]
        simp only [List.mem_cons, ih]
        constructor
        · rintro (rfl | ⟨hnot, hfind⟩)
          · exact absurd rfl hk
          · exact ⟨fun hmem => hnot (Or.inr hmem), hfind⟩
        · rintro ⟨hnot, hfind⟩
          exact Or.inr ⟨fun hmem => hmem.elim (fun he => hk he.symm) hnot, hfind⟩

theorem periodYear_eq_match (p : String) :
    (match (pyWords p).getLast? with
      | some t => (pyInt? t).getD 0
      | none => 0) = periodYear p := by
  unfold periodYear
  cases h : (pyWords p).getLast? with
  | none => rfl
  | some t => rfl

theorem quartersMap_ne_zero (t : String) (v : Nat) (h : quartersMap t = some v) : v ≠ 0 := by
  unfold quartersMap at h
  split at h
  all_goals first
    | (injection h with h2; omega)
    | exact Option.noConfusion h

theorem monthsMap_ne_zero (t : String) (v : Nat) (h : monthsMap t = some v) : v ≠ 0 := by
  unfold monthsMap at h
  split at h
  all_goals first
    | (injection h with h2; omega)
    | exact Option.noConfusion h

theorem getPeriodSortKey_fst (p : String) : (getPeriodSortKey p).1 = periodYear p := by
  simp only [getPeriodSortKey]
  split
  · exact periodYear_eq_match p
  · split
    · exact periodYear_eq_match p
    · exact periodYear_eq_match p

theorem getPeriodSortKey_snd_of_unknown (p : String)
    (hq : quartersMap ((pyWords p).headD "") = none)
    (hm : monthsMap ((pyWords p).headD "") = none) :
    (getPeriodSortKey p).2 = 0 := by
  simp only [getPeriodSortKey]
  rw [hq, hm]
  rfl

theorem getPeriodSortKey_of_quarter (q : String) (v : Nat)
    (hq : quartersMap ((pyWords q).headD "") = some v) :
    getPeriodSortKey q = (periodYear q, v) := by
  have hv := quartersMap_ne_zero _ _ hq
  simp only [getPeriodSortKey]
  rw [hq]
  simp only [Option.getD_some]
  rw [if_pos hv]
  exact Prod.ext_iff.mpr ⟨periodYear_eq_match q, rfl⟩

theorem getPeriodSortKey_of_month (q : String) (v : Nat)
    (hq : quartersMap ((pyWords q).headD "") = none)
    (hm : monthsMap ((pyWords q).headD "") = some v) :
    getPeriodSortKey q = (periodYear q, v) := by
  have hv := monthsMap_ne_zero _ _ hm
  simp only [getPeriodSortKey]
  rw [hq, hm]
  simp only [Option.getD_some, Option.getD_none]
  rw [if_neg (by omega), if_pos hv]
  exact Prod.ext_iff.mpr ⟨periodYear_eq_match q, rfl⟩

/-! ### Claim theorems -/

/-- Claim C1, counterexample: `robust_clean_excel` deduplicates with
`keep="first"`, so of two key-equal rows with Units 10 then 20 the FIRST
(Units 10) is kept, not the most recently ingested one; and the master table
concatenates the per-file batches without any cross-file deduplication, so a
re-uploaded key yields two rows instead of overriding. -/
theorem C1_dedup_counterexample :
    robustClean true "Allergy" [c1MeltedA, c1MeltedB] = [c1FactA]
    ∧ dedupKeepFirst [c1FactA, c1FactB] ≠ [c1FactB]
    ∧ factKey c1FactA = factKey c1FactB
    ∧ c1FactA.units ≠ c1FactB.units
    ∧ masterOf [robustClean true "Allergy" [c1MeltedA],
                robustClean true "Allergy" [c1MeltedB]] = [c1FactA, c1FactB] := by
  refine ⟨by decide, by decide, by decide, by decide, by decide⟩

/-- Claim C1, amended: each per-file batch is deduplicated on the composite
key `(Region, Drug_Name, Source, Period, District?)` — Team is never part of
the key — keeping the FIRST-seen duplicate (a row survives deduplication
exactly when it is the first row of its key), and the assembled master is the
plain concatenation of the per-file batches with no cross-file deduplication
(every row of every batch is in the master). -/
theorem C1_dedup_amended :
    (∀ (rows : List FactRow) (x : FactRow),
      x ∈ dedupKeepFirst rows ↔
        rows.find? (fun y => decide (factKey y = factKey x)) = some x)
    ∧ (∀ (batches : List (List FactRow)) (b : List FactRow) (x : FactRow),
      b ∈ batches → x ∈ b → x ∈ masterOf batches) := by
  constructor
  · intro rows x
    rw [dedupKeepFirst, mem_dedupAux]
    simp
  · intro batches b x hb hx
    exact List.mem_flatten.mpr ⟨b, hb, hx⟩

/-- Claim C1, witness for the amended theorem at concrete rows. -/
theorem C1_dedup_amended_witness :
    c1FactA ∈ dedupKeepFirst [c1FactA, c1FactB]
    ∧ c1FactB ∈ masterOf [[c1FactA], [c1FactB]] :=
  ⟨(C1_dedup_amended.1 [c1FactA, c1FactB] c1FactA).mpr (by decide),
   C1_dedup_amended.2 [[c1FactA], [c1FactB]] [c1FactB] c1FactB (by decide) (by decide)⟩

/-- Claim C2, counterexample: in the sheet
`[Region A, (AB) D1, DRUGX, Region B, DRUGY]` the data row `DRUGY` lies
between the `Region B` row and that region's (nonexistent) first District
row, yet its forward-filled District is `(AB) D1` from region A, not absent —
`_fill_hierarchy` never resets the district at a Region row. -/
theorem C2_district_reset_counterexample :
    ¬ (∀ e ∈ fillHier none none c2Sheet,
        e.region = some "Region B" → e.district = none) := by
  decide

/-- Claim C2, amended: a Region row sets the carried region for all following
rows (until the next Region row) and is itself never emitted as a data row,
but the carried district is NOT reset at a Region row: over any row span
containing no District rows — Region rows included — every emitted row keeps
the incoming district unchanged, so rows after a new Region row inherit the
previous region's last district. -/
theorem C2_district_reset_amended :
    (∀ (r d : Option String) (row : RawRow) (rest : List RawRow),
      isRegionRow (pyStrip row.label) = true →
      (∀ q ∈ rest, isRegionRow (pyStrip q.label) = false) →
      ∀ e ∈ fillHier r d (row :: rest), e.region = some (pyStrip row.label))
    ∧ (∀ (r d : Option String) (rows : List RawRow),
      (∀ q ∈ rows, isDistrictRow (pyStrip q.label) = false) →
      ∀ e ∈ fillHier r d rows, e.district = d)
    ∧ (∀ (r d : Option String) (rows : List RawRow) (e : HierRow),
      e ∈ fillHier r d rows → isRegionRow e.label = false) := by
  refine ⟨?_, ?_, ?_⟩
  · intro r d row rest hrow hrest e he
    rw [fillHier] at he
    rw [if_neg (by rw [region_row_not_emitted _ hrow]; simp)] at he
    rw [if_pos hrow] at he
    exact fillHier_region_inv rest _ _ hrest e he
  · intro r d rows h e he
    exact fillHier_district_inv rows r d h e he
  · intro r d rows e he
    have hemit := fillHier_emitted rows r d e he
    by_contra hreg
    rw [region_row_not_emitted e.label (by revert hreg; cases isRegionRow e.label <;> simp)] at hemit
    exact Bool.false_ne_true hemit

/-- Claim C2, witness for the amended theorem: with district `(AB) D1`
carried in, the rows after `Region B` keep that district and region
`Region B`; the first emitted row of `c2Sheet` is not a Region row. -/
theorem C2_district_reset_amended_witness :
    (∀ e ∈ fillHier none (some "(AB) D1")
        [(⟨"Region B", [some 1]⟩ : RawRow), ⟨"DRUGY", [some 1]⟩],
      e.region = some "Region B")
    ∧ (∀ e ∈ fillHier none (some "(AB) D1")
        [(⟨"Region B", [some 1]⟩ : RawRow), ⟨"DRUGY", [some 1]⟩],
      e.district = some "(AB) D1")
    ∧ isRegionRow (⟨some "Region A", some "(AB) D1", "DRUGX", [some 1]⟩ : HierRow).label
        = false :=
  ⟨C2_district_reset_amended.1 none (some "(AB) D1") ⟨"Region B", [some 1]⟩
      [⟨"DRUGY", [some 1]⟩] (by decide) (by decide),
   C2_district_reset_amended.2.1 none (some "(AB) D1")
      [⟨"Region B", [some 1]⟩, ⟨"DRUGY", [some 1]⟩] (by decide),
   C2_district_reset_amended.2.2 none none c2Sheet _ (by decide)⟩

/-- Claim C5, counterexample: the unrecognized token `"Foo 2024"` receives
sort key `(2024, 0)`, not `(0, 0)`, and does NOT sort before the recognized
period `"Q1 2023"`. -/
theorem C5_sort_key_counterexample :
    getPeriodSortKey "Foo 2024" = (2024, 0)
    ∧ getPeriodSortKey "Foo 2024" ≠ (0, 0)
    ∧ ¬ keyLt (getPeriodSortKey "Foo 2024") (getPeriodSortKey "Q1 2023") := by
  refine ⟨by decide, by decide, by decide⟩

/-- Claim C5, amended: a period token matching neither the quarter nor the
month vocabulary receives sort key `(year, 0)`, where `year` is the integer
parse of its last whitespace-separated part (0 when unparseable) — so it
sorts before every recognized period of the SAME year, but not before
recognized periods of earlier years when it carries a later year. -/
theorem C5_sort_key_amended (p q : String)
    (hq : quartersMap ((pyWords p).headD "") = none)
    (hm : monthsMap ((pyWords p).headD "") = none) :
    getPeriodSortKey p = (periodYear p, 0)
    ∧ (((quartersMap ((pyWords q).headD "")).isSome
        ∨ (monthsMap ((pyWords q).headD "")).isSome) →
      periodYear p = periodYear q →
      keyLt (getPeriodSortKey p) (getPeriodSortKey q)) := by
  have hp : getPeriodSortKey p = (periodYear p, 0) :=
    Prod.ext (getPeriodSortKey_fst p) (getPeriodSortKey_snd_of_unknown p hq hm)
  refine ⟨hp, fun hrec hyear => ?_⟩
  rcases hrec with hqs | hms
  · obtain ⟨v, hv⟩ := Option.isSome_iff_exists.mp hqs
    have hk := getPeriodSortKey_of_quarter q v hv
    rw [hp, hk]
    exact Or.inr ⟨hyear, Nat.pos_of_ne_zero (quartersMap_ne_zero _ _ hv)⟩
  · cases hqq : quartersMap ((pyWords q).headD "") with
    | some v =>
      have hk := getPeriodSortKey_of_quarter q v hqq
      rw [hp, hk]
      exact Or.inr ⟨hyear, Nat.pos_of_ne_zero (quartersMap_ne_zero _ _ hqq)⟩
    | none =>
      obtain ⟨v, hv⟩ := Option.isSome_iff_exists.mp hms
      have hk := getPeriodSortKey_of_month q v hqq hv
      rw [hp, hk]
      exact Or.inr ⟨hyear, Nat.pos_of_ne_zero (monthsMap_ne_zero _ _ hv)⟩

/-- Claim C5, witness: `"Foo 2024"` gets key `(2024, 0)` and sorts before the
same-year recognized period `"Q4 2024"`. -/
theorem C5_sort_key_amended_witness :
    getPeriodSortKey "Foo 2024" = (periodYear "Foo 2024", 0)
    ∧ keyLt (getPeriodSortKey "Foo 2024") (getPeriodSortKey "Q4 2024") :=
  ⟨(C5_sort_key_amended "Foo 2024" "Q4 2024" (by decide) (by decide)).1,
   (C5_sort_key_amended "Foo 2024" "Q4 2024" (by decide) (by decide)).2
     (by decide) (by decide)⟩

/-- Claim C6, counterexample: the data row `ORPHAN`, which precedes any
Region row of its sheet, is NOT rejected by the display assembly — it is
emitted with the defaulted Region string `"nan"` (pandas `astype(str)` of the
forward-fill's missing value). -/
theorem C6_region_reject_counterexample :
    (⟨"nan", none, "ORPHAN", "Q1 2024", 5⟩ : DisplayRow)
      ∈ displayPipeline ["Q1 2024"] c6Sheet
    ∧ ¬ (∀ p ∈ displayPipeline ["Q1 2024"] c6Sheet, p.region ≠ "nan") := by
  refine ⟨by decide, by decide⟩

/-- Claim C6, amended: `prepare_data_for_display` drops only rows whose Units
cell is not numeric; every melted row with numeric Units — including one
whose Region is absent because it preceded any Region row — reaches the
display table, with an absent Region normalised to the literal string
`"nan"` rather than the row being rejected. -/
theorem C6_region_reject_amended :
    (∀ (pcs : List String) (sheet : List RawRow) (m : MeltedRow) (u : ℚ),
      m ∈ meltRows pcs (fillHier none none sheet) → m.units = some u →
      (⟨normalizeRegion m.region, m.district, m.drugName, m.quarter, u⟩ : DisplayRow)
        ∈ displayPipeline pcs sheet)
    ∧ normalizeRegion none = "nan" := by
  constructor
  · intro pcs sheet m u hm hu
    unfold displayPipeline prepareForDisplay
    exact List.mem_filterMap.mpr ⟨m, hm, by rw [hu]; rfl⟩
  · rfl

/-- Claim C6, witness: the pre-Region melted row of `c6Sheet` survives into
the display table with Region `"nan"`. -/
theorem C6_region_reject_amended_witness :
    (⟨"nan", none, "ORPHAN", "Q1 2024", 5⟩ : DisplayRow)
      ∈ displayPipeline ["Q1 2024"] c6Sheet :=
  C6_region_reject_amended.1 ["Q1 2024"] c6Sheet
    ⟨none, none, "ORPHAN", "Q1 2024", some 5⟩ 5 (by decide) (by decide)

theorem nested_filter_units (df : List FactRow) (drug p : String) :
    (((df.filter fun r => r.drugName == drug).filter
        fun r => r.quarter == p).map (·.units)).sum = unitsOf df drug p := by
  unfold unitsOf
  rw [List.filter_filter]
  have h : (df.filter fun a => a.quarter == p && a.drugName == drug)
      = df.filter fun r => r.drugName == drug && r.quarter == p := by
    apply List.filter_congr
    intro x _
    cases x.drugName == drug <;> cases x.quarter == p <;> rfl
  rw [h]

theorem code_growth_eq_spec (a b : ℚ) :
    (if b ≠ 0 then ((a - b) / b) * 100 else if a ≠ 0 then (100 : ℚ) else 0)
      = specGrowthPct b a := by
  by_cases hb : b = 0 <;> by_cases ha : a = 0 <;> simp [specGrowthPct, hb, ha]

theorem eiRowFor_growthPct (df : List FactRow) (refP baseP drug : String) :
    (eiRowFor df refP baseP drug).growthPct
      = specGrowthPct (unitsOf df drug baseP) (unitsOf df drug refP) := by
  simp only [eiRowFor]
  rw [nested_filter_units, nested_filter_units, code_growth_eq_spec]

/-- Claim C3: for every entity and pair of periods the pipeline's GrowthPct
equals `((curr - prev) / prev) * 100` on the entity's summed units, with the
`prev == 0` edge policy `0 if curr == 0 else 100`; in particular
`GrowthPct(prev=0, curr=0) = 0`, `GrowthPct(prev=0, curr=50) = 100`,
`GrowthPct(prev=100, curr=120) = 20`. -/
theorem C3_growth_formula (df : List FactRow) (drug refP baseP : String) :
    ((computeEiRowsAndOverall df [drug] refP baseP).1.map (·.growthPct))
      = [specGrowthPct (unitsOf df drug baseP) (unitsOf df drug refP)]
    ∧ specGrowthPct 0 0 = 0
    ∧ specGrowthPct 0 50 = 100
    ∧ specGrowthPct 100 120 = 20 := by
  refine ⟨?_, by norm_num [specGrowthPct], by norm_num [specGrowthPct],
    by norm_num [specGrowthPct]⟩
  simp only [computeEiRowsAndOverall, List.foldl_cons, List.foldl_nil]
  cases hei : (eiRowFor df refP baseP drug).ei <;>
    simp [hei, eiRowFor_growthPct]

/-- Claim C4: when the product's Source is set and an ATC-class row shares
it, the pipeline's EI is
`((100 + GrowthPct(product)) / (100 + GrowthPct(matchedClass))) * 100` (the
matched class is the first class row sharing the Source); when no class
shares the Source the EI is an explicit absent value, never zero; and
`EI(productGrowth=20, classGrowth=0) = 120`. -/
theorem C4_evolution_index (df : List FactRow) (refP baseP drug src : String)
    (classRow : FactRow)
    (h1 : ((df.filter fun r => r.drugName == drug).head?).map (·.source) = some src)
    (h2 : src ≠ "") :
    ((((df.filter fun r => isAtcClass r.drugName).filter
          fun r => r.source == src).head? = some classRow →
        (eiRowFor df refP baseP drug).ei = some (specEvolutionIndex
          (specGrowthPct (unitsOf df drug baseP) (unitsOf df drug refP))
          (specGrowthPct (unitsOf df classRow.drugName baseP)
            (unitsOf df classRow.drugName refP))))
      ∧ (((df.filter fun r => isAtcClass r.drugName).filter
          fun r => r.source == src).head? = none →
        (eiRowFor df refP baseP drug).ei = none))
    ∧ specEvolutionIndex 20 0 = 120 := by
  refine ⟨⟨?_, ?_⟩, by norm_num [specEvolutionIndex]⟩
  · intro hcls
    simp only [eiRowFor, eiClassPart, h1]
    rw [if_neg h2]
    simp only [hcls]
    rw [code_growth_eq_spec, code_growth_eq_spec,
      nested_filter_units, nested_filter_units]
    rfl
  · intro hcls
    simp only [eiRowFor, eiClassPart, h1]
    rw [if_neg h2]
    simp only [hcls]

/-- Claim C4, witness: on the concrete table with product growth 20 and class
growth 0 the EI is exactly 120. -/
theorem C4_evolution_index_witness :
    (eiRowFor eiExampleDf "Q2" "Q1" "PRODX").ei = some 120 := by
  have h := (C4_evolution_index eiExampleDf "Q2" "Q1" "PRODX" "Lipo"
    ⟨"SOFIA", none, "C10A1 STATINS", "Lipo", "Q1", 50⟩
    (by decide) (by decide)).1.1 (by decide)
  rw [h]
  have e1 : unitsOf eiExampleDf "PRODX" "Q1" = 100 := by simp [unitsOf, eiExampleDf]
  have e2 : unitsOf eiExampleDf "PRODX" "Q2" = 120 := by simp [unitsOf, eiExampleDf]
  have e3 : unitsOf eiExampleDf "C10A1 STATINS" "Q1" = 50 := by simp [unitsOf, eiExampleDf]
  have e4 : unitsOf eiExampleDf "C10A1 STATINS" "Q2" = 50 := by simp [unitsOf, eiExampleDf]
  rw [e1, e2, e3, e4]
  norm_num [specEvolutionIndex, specGrowthPct]

/-- Claim C8: a product's market share is
`100 * productUnits(period) / classUnits(period)` against the first ATC-class
row sharing its Source when that class total is positive, and 0 otherwise
(including when no class shares the Source); an ATC-class row itself gets
share exactly 100. -/
theorem C8_market_share (df : List FactRow) (drug period src : String)
    (classRow : FactRow)
    (h1 : ((df.filter fun r => r.drugName == drug).head?).map (·.source) = some src) :
    ((((df.filter fun r => isAtcClass r.drugName).filter
          fun r => r.source == src).head? = some classRow →
        bubbleMarketShare df drug period =
          (if 0 < unitsOf df classRow.drugName period
           then 100 * unitsOf df drug period / unitsOf df classRow.drugName period
           else 0))
      ∧ (((df.filter fun r => isAtcClass r.drugName).filter
          fun r => r.source == src).head? = none →
        bubbleMarketShare df drug period = 0))
    ∧ (∀ (cbp : String → ℚ) (nu : String → String → ℚ) (clsName p2 : String),
        isAtcClass clsName = true → calcShare cbp nu clsName p2 = 100) := by
  obtain ⟨fr, hfr, hsrc⟩ := Option.map_eq_some'.mp h1
  refine ⟨⟨?_, ?_⟩, ?_⟩
  · intro hcls
    simp only [bubbleMarketShare, hfr, hsrc, hcls]
    rfl
  · intro hcls
    simp only [bubbleMarketShare, hfr, hsrc, hcls]
  · intro cbp nu clsName p2 hcl
    simp [calcShare, hcl]

/-- Claim C8, witness: on the concrete table the product's share is
`100 * 120 / 50 = 240` and the class row's share is 100. -/
theorem C8_market_share_witness :
    bubbleMarketShare eiExampleDf "PRODX" "Q2" = 240
    ∧ calcShare (fun _ => 50) (fun _ _ => 0) "C10A1 STATINS" "Q2" = 100 := by
  constructor
  · have h := (C8_market_share eiExampleDf "PRODX" "Q2" "Lipo"
      ⟨"SOFIA", none, "C10A1 STATINS", "Lipo", "Q1", 50⟩ (by decide)).1.1 (by decide)
    rw [h]
    have e2 : unitsOf eiExampleDf "PRODX" "Q2" = 120 := by simp [unitsOf, eiExampleDf]
    have e4 : unitsOf eiExampleDf "C10A1 STATINS" "Q2" = 50 := by simp [unitsOf, eiExampleDf]
    rw [e2, e4]
    norm_num
  · exact (C8_market_share eiExampleDf "PRODX" "Q2" "Lipo"
      ⟨"SOFIA", none, "C10A1 STATINS", "Lipo", "Q1", 50⟩ (by decide)).2
      (fun _ => 50) (fun _ _ => 0) "C10A1 STATINS" "Q2" (by decide)

theorem eiFold_spec (df : List FactRow) (refP baseP : String) (drugs : List String) :
    ∀ (acc : List EiRow × ℚ × ℚ),
      drugs.foldl (fun (acc : List EiRow × ℚ × ℚ) drug =>
        let row := eiRowFor df refP baseP drug
        match row.ei with
        | some e => (acc.1 ++ [row], acc.2.1 + row.salesRef, acc.2.2 + e * row.salesRef)
        | none => (acc.1 ++ [row], acc.2.1, acc.2.2)) acc
      = (acc.1 ++ drugs.map (eiRowFor df refP baseP),
         acc.2.1 + eiDefinedWeight (drugs.map (eiRowFor df refP baseP)),
         acc.2.2 + eiWeightedSum (drugs.map (eiRowFor df refP baseP))) := by
  induction drugs with
  | nil => intro acc; simp [eiDefinedWeight, eiWeightedSum]
  | cons d ds ih =>
    intro acc
    rw [List.foldl_cons]
    cases hei : (eiRowFor df refP baseP d).ei with
    | none =>
      simp only [hei]
      rw [ih]
      simp [eiDefinedWeight, eiWeightedSum, hei, List.append_assoc]
    | some e =>
      simp only [hei]
      rw [ih]
      simp [eiDefinedWeight, eiWeightedSum, hei, List.append_assoc, add_assoc]

/-- Claim C9: the overall (portfolio) EI is the quotient of the EI-weighted
reference-period sales by the total reference-period sales over exactly the
entities whose EI is defined (undefined-EI entities contribute to neither
sum), and it is an explicit absent value when that denominator is 0; every
requested entity still receives a table row. -/
theorem C9_portfolio_ei (df : List FactRow) (drugs : List String)
    (refP baseP : String) :
    (computeEiRowsAndOverall df drugs refP baseP).1 = drugs.map (eiRowFor df refP baseP)
    ∧ (0 < eiDefinedWeight (computeEiRowsAndOverall df drugs refP baseP).1 →
        (computeEiRowsAndOverall df drugs refP baseP).2 =
          some (eiWeightedSum (computeEiRowsAndOverall df drugs refP baseP).1 /
            eiDefinedWeight (computeEiRowsAndOverall df drugs refP baseP).1))
    ∧ (eiDefinedWeight (computeEiRowsAndOverall df drugs refP baseP).1 = 0 →
        (computeEiRowsAndOverall df drugs refP baseP).2 = none) := by
  have hfold := eiFold_spec df refP baseP drugs ([], 0, 0)
  have hfst : (computeEiRowsAndOverall df drugs refP baseP).1
      = drugs.map (eiRowFor df refP baseP) := by
    simp only [computeEiRowsAndOverall, hfold, List.nil_append]
  refine ⟨hfst, ?_, ?_⟩
  · intro hpos
    rw [hfst] at hpos
    simp only [computeEiRowsAndOverall, hfold, List.nil_append, zero_add, hfst]
    rw [if_pos hpos]
  · intro hzero
    rw [hfst] at hzero
    simp only [computeEiRowsAndOverall, hfold, List.nil_append, zero_add]
    rw [hzero]
    simp

/-- Claim C9, witness: on the one-product portfolio the weighted-average
formula applies — its denominator (the product's reference-period sales, 120)
is positive. -/
theorem C9_portfolio_ei_witness :
    (computeEiRowsAndOverall eiExampleDf ["PRODX"] "Q2" "Q1").2 =
      some (eiWeightedSum (computeEiRowsAndOverall eiExampleDf ["PRODX"] "Q2" "Q1").1 /
        eiDefinedWeight (computeEiRowsAndOverall eiExampleDf ["PRODX"] "Q2" "Q1").1) := by
  apply (C9_portfolio_ei eiExampleDf ["PRODX"] "Q2" "Q1").2.1
  rw [(C9_portfolio_ei eiExampleDf ["PRODX"] "Q2" "Q1").1]
  have hsales : (eiRowFor eiExampleDf "Q2" "Q1" "PRODX").salesRef = 120 := by
    simp only [eiRowFor]
    rw [nested_filter_units]
    simp [unitsOf, eiExampleDf]
  have hsome : ∃ v, (eiRowFor eiExampleDf "Q2" "Q1" "PRODX").ei = some v := by
    have h1 : ((eiExampleDf.filter fun r => r.drugName == "PRODX").head?).map (·.source)
        = some "Lipo" := by decide
    have h2 : ((eiExampleDf.filter fun r => isAtcClass r.drugName).filter
        fun r => r.source == "Lipo").head?
        = some ⟨"SOFIA", none, "C10A1 STATINS", "Lipo", "Q1", 50⟩ := by decide
    simp only [eiRowFor, eiClassPart, h1]
    rw [if_neg (by decide : ("Lipo" : String) ≠ "")]
    simp only [h2]
    exact ⟨_, rfl⟩
  obtain ⟨v, hv⟩ := hsome
  simp only [List.map_cons, List.map_nil, eiDefinedWeight, List.filterMap_cons,
    List.filterMap_nil, hv, Option.map_some, List.sum_cons, List.sum_nil, hsales]
  norm_num

theorem triple_filter_units (df : List FactRow) (product period g : String) :
    ((((df.filter fun r => r.drugName == product).filter
        fun r => r.quarter == period).filter fun r => r.region == g).map (·.units)).sum
      = productRegionUnits df product period g := by
  unfold productRegionUnits
  rw [List.filter_filter, List.filter_filter]
  have h : (df.filter fun a => a.region == g && a.quarter == period && a.drugName == product)
      = df.filter fun r => r.drugName == product && r.quarter == period && r.region == g := by
    apply List.filter_congr
    intro x _
    cases x.drugName == product <;> cases x.quarter == period <;> cases x.region == g <;> rfl
  rw [h]

theorem mem_rankingRows (df : List FactRow) (product lastP prevP g : String)
    (hg : ∃ r ∈ df, r.drugName = product ∧ (r.quarter = lastP ∨ r.quarter = prevP)
      ∧ r.region = g) :
    (⟨g, productRegionUnits df product lastP g, productRegionUnits df product prevP g,
      if productRegionUnits df product prevP g = 0
      then (if productRegionUnits df product lastP g > 0 then (100 : ℚ) else 0)
      else ((productRegionUnits df product lastP g - productRegionUnits df product prevP g)
        / productRegionUnits df product prevP g) * 100⟩ : RankRow)
      ∈ rankingRows df product lastP prevP := by
  obtain ⟨r0, hr0, hdrug0, hq0, hreg0⟩ := hg
  have hsubmem : r0 ∈ df.filter fun r => r.drugName == product :=
    List.mem_filter.mpr ⟨hr0, by simp [hdrug0]⟩
  simp only [rankingRows]
  apply List.mem_map.mpr
  refine ⟨g, ?_, ?_⟩
  · apply List.mem_dedup.mpr
    apply List.mem_map.mpr
    refine ⟨r0, List.mem_append.mpr ?_, hreg0⟩
    rcases hq0 with hq0 | hq0
    · exact Or.inl (List.mem_filter.mpr ⟨hsubmem, by simp [hq0]⟩)
    · exact Or.inr (List.mem_filter.mpr ⟨hsubmem, by simp [hq0]⟩)
  · rw [triple_filter_units, triple_filter_units]

theorem rankings_some (df : List FactRow) (product : String) (periods : List String)
    (hdf : df ≠ []) (hprod : product ≠ "") (hlen : 2 ≤ periods.length)
    (hsub : df.filter (fun r => r.drugName == product) ≠ []) :
    computeLastVsPreviousRankings df product periods =
      some ((rankingRows df product (periods.getD (periods.length - 1) "")
          (periods.getD (periods.length - 2) "")).mergeSort
            (fun a b => decide (b.growth ≤ a.growth)),
        periods.getD (periods.length - 1) "",
        periods.getD (periods.length - 2) "") := by
  unfold computeLastVsPreviousRankings
  rw [if_neg (by simp [List.isEmpty_iff, hdf, hprod]; omega)]
  rw [if_neg (by simp [List.isEmpty_iff, hsub])]

/-- Claim C10: in the per-region last-vs-previous growth leaderboard a region
with rows in only one of the two periods is still ranked, its missing-period
units taken as 0: positive last-period units with zero previous-period units
give growth exactly 100, and positive previous-period units with zero
last-period units give growth exactly −100. -/
theorem C10_one_sided_regions (df : List FactRow) (product : String)
    (periods : List String) (region lastP prevP : String)
    (hprod : product ≠ "") (hlen : 2 ≤ periods.length)
    (hlast : lastP = periods.getD (periods.length - 1) "")
    (hprev : prevP = periods.getD (periods.length - 2) "") :
    ((∃ r ∈ df, r.drugName = product ∧ r.quarter = lastP ∧ r.region = region) →
      productRegionUnits df product prevP region = 0 →
      0 < productRegionUnits df product lastP region →
      ∃ out, computeLastVsPreviousRankings df product periods = some out ∧
        (⟨region, productRegionUnits df product lastP region, 0, 100⟩ : RankRow) ∈ out.1)
    ∧ ((∃ r ∈ df, r.drugName = product ∧ r.quarter = prevP ∧ r.region = region) →
      productRegionUnits df product lastP region = 0 →
      0 < productRegionUnits df product prevP region →
      ∃ out, computeLastVsPreviousRankings df product periods = some out ∧
        (⟨region, 0, productRegionUnits df product prevP region, -100⟩ : RankRow) ∈ out.1) := by
  subst hlast
  subst hprev
  constructor
  · intro hex hpu hlu
    obtain ⟨r0, hr0, hdrug0, hq0, hreg0⟩ := hex
    have hdf : df ≠ [] := List.ne_nil_of_mem hr0
    have hsub : df.filter (fun r => r.drugName == product) ≠ [] :=
      List.ne_nil_of_mem (List.mem_filter.mpr ⟨hr0, by simp [hdrug0]⟩)
    refine ⟨_, rankings_some df product periods hdf hprod hlen hsub, ?_⟩
    rw [(List.mergeSort_perm _ _).mem_iff]
    have hmem := mem_rankingRows df product
      (periods.getD (periods.length - 1) "") (periods.getD (periods.length - 2) "")
      region ⟨r0, hr0, hdrug0, Or.inl hq0, hreg0⟩
    rw [hpu] at hmem
    rw [if_pos rfl, if_pos hlu] at hmem
    exact hmem
  · intro hex hlu hpu
    obtain ⟨r0, hr0, hdrug0, hq0, hreg0⟩ := hex
    have hdf : df ≠ [] := List.ne_nil_of_mem hr0
    have hsub : df.filter (fun r => r.drugName == product) ≠ [] :=
      List.ne_nil_of_mem (List.mem_filter.mpr ⟨hr0, by simp [hdrug0]⟩)
    refine ⟨_, rankings_some df product periods hdf hprod hlen hsub, ?_⟩
    rw [(List.mergeSort_perm _ _).mem_iff]
    have hmem := mem_rankingRows df product
      (periods.getD (periods.length - 1) "") (periods.getD (periods.length - 2) "")
      region ⟨r0, hr0, hdrug0, Or.inr hq0, hreg0⟩
    rw [hlu] at hmem
    rw [if_neg (ne_of_gt hpu)] at hmem
    have harith : ((0 - productRegionUnits df product
          (periods.getD (periods.length - 2) "") region)
        / productRegionUnits df product (periods.getD (periods.length - 2) "") region)
        * 100 = -100 := by
      rw [zero_sub, neg_div, div_self (ne_of_gt hpu)]
      norm_num
    rw [harith] at hmem
    exact hmem

/-- Claim C10, witness: region North has only last-period rows (5 units,
growth 100) and region South only previous-period rows (7 units,
growth −100); both appear in the ranking. -/
theorem C10_one_sided_regions_witness :
    (∃ out, computeLastVsPreviousRankings rankExampleDf "P" ["Q1", "Q2"] = some out ∧
      (⟨"North", productRegionUnits rankExampleDf "P" "Q2" "North", 0, 100⟩ : RankRow)
        ∈ out.1)
    ∧ (∃ out, computeLastVsPreviousRankings rankExampleDf "P" ["Q1", "Q2"] = some out ∧
      (⟨"South", 0, productRegionUnits rankExampleDf "P" "Q1" "South", -100⟩ : RankRow)
        ∈ out.1) := by
  have hn0 : productRegionUnits rankExampleDf "P" "Q1" "North" = 0 := by
    simp [productRegionUnits, rankExampleDf]
  have hn1 : (0 : ℚ) < productRegionUnits rankExampleDf "P" "Q2" "North" := by
    simp [productRegionUnits, rankExampleDf]
  have hs0 : productRegionUnits rankExampleDf "P" "Q2" "South" = 0 := by
    simp [productRegionUnits, rankExampleDf]
  have hs1 : (0 : ℚ) < productRegionUnits rankExampleDf "P" "Q1" "South" := by
    simp [productRegionUnits, rankExampleDf]
  constructor
  · exact (C10_one_sided_regions rankExampleDf "P" ["Q1", "Q2"] "North" "Q2" "Q1"
      (by decide) (by decide) (by decide) (by decide)).1
      ⟨⟨"North", none, "P", "S", "Q2", 5⟩, by decide, by decide, by decide, by decide⟩
      hn0 hn1
  · exact (C10_one_sided_regions rankExampleDf "P" ["Q1", "Q2"] "South" "Q2" "Q1"
      (by decide) (by decide) (by decide) (by decide)).2
      ⟨⟨"South", none, "P", "S", "Q1", 7⟩, by decide, by decide, by decide, by decide⟩
      hs0 hs1

theorem notWs_of_isDigit (c : Char) (h : c.isDigit = true) : c.isWhitespace = false := by
  cases hws : c.isWhitespace
  · rfl
  · exfalso
    have hd : ((c = ' ' ∨ c = '\t') ∨ c = '\r') ∨ c = '\n' := by
      simpa [Char.isWhitespace] using hws
    rcases hd with ((rfl | rfl) | rfl) | rfl <;> exact absurd h (by decide)

theorem notWs_of_isUpper (c : Char) (h : c.isUpper = true) : c.isWhitespace = false := by
  cases hws : c.isWhitespace
  · rfl
  · exfalso
    have hd : ((c = ' ' ∨ c = '\t') ∨ c = '\r') ∨ c = '\n' := by
      simpa [Char.isWhitespace] using hws
    rcases hd with ((rfl | rfl) | rfl) | rfl <;> exact absurd h (by decide)

theorem pyWordsAux_acc (l : List Char) :
    ∀ acc : List Char, acc ≠ [] →
      pyWordsAux acc l = (acc.reverse ++ takeWord l) :: pyWordsAux [] (dropWord l) := by
  induction l with
  | nil =>
    intro acc hacc
    simp [pyWordsAux, takeWord, dropWord, List.isEmpty_iff, hacc]
  | cons c rest ih =>
    intro acc hacc
    cases hc : c.isWhitespace
    · simp only [pyWordsAux, takeWord, dropWord, hc, Bool.false_eq_true, if_false]
      rw [ih (c :: acc) (by simp)]
      simp [List.append_assoc]
    · simp [pyWordsAux, takeWord, dropWord, hc, List.isEmpty_iff, hacc]

theorem pyWords_cons_nonws (s : String) (c : Char) (l : List Char)
    (hdata : s.data = c :: l) (hc : c.isWhitespace = false) :
    pyWords s = (⟨c :: takeWord l⟩ : String)
      :: (pyWordsAux [] (dropWord l)).map (fun cs => ⟨cs⟩) := by
  unfold pyWords
  rw [hdata]
  rw [show pyWordsAux [] (c :: l) = pyWordsAux [c] l from by
    simp [pyWordsAux, hc]]
  rw [pyWordsAux_acc l [c] (by simp)]
  simp

theorem region_prefix_mono (s : String) (h : isRegionRow s = true) :
    pyStartsWith s "Region" = true := by
  unfold isRegionRow pyStartsWith at *
  rw [List.isPrefixOf_iff_prefix] at h ⊢
  exact List.IsPrefix.trans ⟨[' '], rfl⟩ h

theorem isDistrict_data (s : String) (h : isDistrictRow s = true) :
    ∃ a b c t, s.data = '(' :: a :: b :: ')' :: c :: t := by
  unfold isDistrictRow at h
  split at h
  · next a b c t heq => exact ⟨a, b, c, t, heq⟩
  · exact absurd h (by simp)

theorem not_district_of_atc (s : String) (h : isAtcClass s = true) :
    isDistrictRow s = false := by
  cases hdis : isDistrictRow s
  · rfl
  exfalso
  obtain ⟨a, b, c, t, hdata⟩ := isDistrict_data s hdis
  have hw := pyWords_cons_nonws s '(' (a :: b :: ')' :: c :: t) hdata (by decide)
  unfold isAtcClass at h
  rw [hw] at h
  simp only [List.head?_cons] at h
  have halpha : (('(' : Char).isAlpha) = false := by decide
  simp [halpha] at h

theorem not_region_of_atc (s : String) (h : isAtcClass s = true) :
    isRegionRow s = false := by
  cases hreg : isRegionRow s
  · rfl
  exfalso
  have h2 := region_prefix_mono s hreg
  unfold isAtcClass at h
  cases hp : (pyWords s).head? <;> simp [hp, h2] at h

theorem category_data (s : String) (h : isCategoryIngest s = true) :
    ∃ a b c d e f t, s.data = a :: b :: c :: d :: e :: f :: t
      ∧ a.isUpper = true ∧ b.isDigit = true ∧ f.isWhitespace = true := by
  unfold isCategoryIngest at h
  split at h
  · next a b c d e f t heq =>
    simp only [Bool.and_eq_true] at h
    exact ⟨a, b, c, d, e, f, t, heq, h.1.1.1.1.1, h.1.1.1.1.2, h.2⟩
  · exact absurd h (by simp)

theorem isAtcClass_eq_specPattern (s : String) :
    isAtcClass s = specTherapeuticClassPattern s := by
  unfold isAtcClass specTherapeuticClassPattern
  cases h : pyWords s with
  | nil => rfl
  | cons first rest =>
    simp only [List.head?_cons, List.length_cons]
    cases hd : first.data with
    | nil =>
      have halpha : ((' ' : Char).isAlpha) = false := by decide
      simp [hd, halpha]
    | cons c0 cs0 =>
      simp only [hd, List.head?_cons, List.headD_cons]
      rw [Bool.eq_iff_iff]
      simp only [Bool.and_eq_true, decide_eq_true_eq, Bool.not_eq_true',
        beq_eq_false_iff_ne, ne_eq, Bool.or_eq_false_iff, Bool.or_eq_true,
        beq_iff_eq, Bool.not_eq_true]
      tauto

theorem not_atc_of_first_token_no_digit (s : String)
    (hlen : 2 ≤ (pyWords s).length)
    (hnd : (((pyWords s).headD "").data.all fun c => !c.isDigit) = true) :
    isAtcClass s = false := by
  cases h : pyWords s with
  | nil => rw [h] at hlen; simp at hlen
  | cons p0 r =>
    rw [h] at hnd
    simp only [List.headD_cons] at hnd
    have hany : (p0.data.any Char.isDigit) = false := by
      cases ha : p0.data.any Char.isDigit
      · rfl
      · exfalso
        obtain ⟨c, hcmem, hcdig⟩ := List.any_eq_true.mp ha
        have := List.all_eq_true.mp hnd c hcmem
        simp [hcdig] at this
    unfold isAtcClass
    rw [h]
    simp [hany]

theorem not_category_of_first_token_no_digit (s : String)
    (hnd : (((pyWords s).headD "").data.all fun c => !c.isDigit) = true) :
    isCategoryIngest s = false := by
  cases hcat : isCategoryIngest s
  · rfl
  exfalso
  obtain ⟨a, b, c, d, e, f, t, hdata, hup, hbdig, hfws⟩ := category_data s hcat
  have hw := pyWords_cons_nonws s a (b :: c :: d :: e :: f :: t) hdata
    (notWs_of_isUpper a hup)
  rw [hw] at hnd
  simp only [List.headD_cons] at hnd
  have hbmem : b ∈ (⟨a :: takeWord (b :: c :: d :: e :: f :: t)⟩ : String).data := by
    show b ∈ a :: takeWord (b :: c :: d :: e :: f :: t)
    rw [show takeWord (b :: c :: d :: e :: f :: t)
        = b :: takeWord (c :: d :: e :: f :: t) from by
      simp [takeWord, notWs_of_isDigit b hbdig]]
    exact List.mem_cons_of_mem _ (List.mem_cons_self _ _)
  have := List.all_eq_true.mp hnd b hbmem
  simp [hbdig] at this

/-- Claim C7, counterexample: the label `"HELLO1 WORLD"` matches the claimed
TherapeuticClass pattern (first token `HELLO1`: length 6, alpha-leading, has
a digit, upper-case; two tokens; no reserved marker or Region prefix) and is
accepted by the metrics classifier `_is_atc_class`, yet the ingestion regex
`^[A-Z]\d{2}[A-Z]\d\s+` does NOT mark it a Category row — the ingestion
pattern is strictly narrower than the claimed one. -/
theorem C7_classification_counterexample :
    specTherapeuticClassPattern "HELLO1 WORLD" = true
    ∧ isAtcClass "HELLO1 WORLD" = true
    ∧ isCategoryIngest "HELLO1 WORLD" = false := by
  refine ⟨by decide, by decide, by decide⟩

/-- Claim C7, amended: a label is classified TherapeuticClass by the
metrics-layer classifier `_is_atc_class` exactly when it matches the claimed
pattern; every such label is retained as a data-bearing row during ingestion
(it is never a Region or District row, so it passes the Drug|Category
emission filter — as a Category row only when it additionally matches the
narrower five-character ingestion regex); and a multi-word upper-case label
whose first token lacks a digit is classified neither TherapeuticClass nor
ingestion-Category, i.e. it is treated as a Product. -/
theorem C7_classification_amended :
    (∀ s, isAtcClass s = specTherapeuticClassPattern s)
    ∧ (∀ s, isAtcClass s = true → (isDrugIngest s || isCategoryIngest s) = true)
    ∧ (∀ s, 2 ≤ (pyWords s).length →
        (((pyWords s).headD "").data.all fun c => !c.isDigit) = true →
        pyIsUpper s = true →
        isAtcClass s = false ∧ isCategoryIngest s = false) := by
  refine ⟨isAtcClass_eq_specPattern, ?_, ?_⟩
  · intro s h
    unfold isDrugIngest
    rw [not_region_of_atc s h, not_district_of_atc s h]
    cases hc : isCategoryIngest s <;> simp
  · intro s hlen hnd _
    exact ⟨not_atc_of_first_token_no_digit s hlen hnd,
      not_category_of_first_token_no_digit s hnd⟩

/-- Claim C7, witness: the classifier agrees with the pattern on
`"C10A1 STATINS"`; the pattern-matching label `"HELLO1 WORLD"` passes the
ingestion emission filter; and the digit-less multi-word upper-case label
`"AERIUS TABS"` is neither TherapeuticClass nor ingestion-Category. -/
theorem C7_classification_amended_witness :
    isAtcClass "C10A1 STATINS" = specTherapeuticClassPattern "C10A1 STATINS"
    ∧ (isDrugIngest "HELLO1 WORLD" || isCategoryIngest "HELLO1 WORLD") = true
    ∧ (isAtcClass "AERIUS TABS" = false ∧ isCategoryIngest "AERIUS TABS" = false) :=
  ⟨C7_classification_amended.1 "C10A1 STATINS",
   C7_classification_amended.2.1 "HELLO1 WORLD" (by decide),
   C7_classification_amended.2.2 "AERIUS TABS" (by decide) (by decide) (by decide)⟩

end PharmaSpec
